import Mathlib

/-!
Verification development for the `self2elf` conversion (src/self2elf.py).

The file shallow-embeds the conversion pipeline: the header chain walk, the
control-info chain, the 0xF00D ELF-header adjustment, the program-header /
segment-info collection loop, the key-lookup gating, and the segment
reconstruction loop (padding, AES-CTR decryption, decompression, write-back).

The fixed record layouts (`scetypes`), the key-lookup service
(`sceutils.get_segments`), the AES block cipher and the zlib inflater are
external to the source file; they are modelled opaquely, as fields of an
`Env` structure, faithful to the specification's description of them
("fixed-size records", "opaque lookup service", "block cipher in counter
mode", "deflate decompression").
-/

namespace Sceutils

/-- Bytes of a stream are modelled as natural numbers; `slice s off n` is the
result of `seek(off); read(n)` on a stream with contents `s` (like Python's
`read`, it is truncated at end of stream). -/
def slice (s : List Nat) (off n : Nat) : List Nat :=
  (s.drop off).take n

/-- A run of `n` zero bytes, as written for inter-segment padding. -/
def zeros (n : Nat) : List Nat :=
  List.replicate n 0

/-- Modelled from the spec: the three-valued secure boolean used by the
`plaintext` and `compressed` flags of a segment-info record (`scetypes` is not
under src/). The code only compares against `NO` and `YES`. -/
inductive SecureBool where
  | unused
  | no
  | yes
deriving DecidableEq

/-- Modelled from the spec: the control-info record type tags the code
compares against (`ControlType.DIGEST_SHA256`, `ControlType.NPDRM_VITA`);
all other tags are collapsed into `other`. -/
inductive ControlType where
  | digest_sha256
  | npdrm_vita
  | other (tag : Nat)
deriving DecidableEq

/-- Modelled from the spec: the loader header's absolute offsets used by
`self2elf` (`scetypes.SelfHeader` is not under src/). -/
structure SelfHeader where
  appinfo_offset : Nat
  sceversion_offset : Nat
  controlinfo_offset : Nat
  elf_offset : Nat
  phdr_offset : Nat
  segment_info_offset : Nat
deriving DecidableEq

/-- Modelled from the spec: the app-info fields consumed by key lookup.
`sys_version` is an integer because the `ignore_sysver` override stores `-1`. -/
structure AppInfoHeader where
  sys_version : Int
  self_type : Nat
deriving DecidableEq

/-- Modelled from the spec: the common control-info header; only its type tag
is consulted by the chain walk. -/
structure SceControlInfo where
  type : ControlType
deriving DecidableEq

/-- Modelled from the spec: the DRM sub-record; only `npdrm_type` is used. -/
structure SceControlInfoDRM where
  npdrm_type : Nat
deriving DecidableEq

/-- Modelled from the spec: the embedded executable header fields the code
reads or writes (`e_machine`, `e_shnum`, `e_shoff`, `e_phnum`); all remaining
fields are carried opaquely in `rest` so that "every other field" is
expressible. -/
structure ElfHeader where
  e_machine : Nat
  e_shnum : Nat
  e_shoff : Nat
  e_phnum : Nat
  rest : List Nat
deriving DecidableEq

/-- Modelled from the spec: the program-header fields the loop consults. -/
structure ElfPhdr where
  p_offset : Nat
  p_filesz : Nat
deriving DecidableEq

/-- Modelled from the spec: a segment-info record: physical offset and size of
the stored segment data, plus the compression and plaintext flags. -/
structure SegmentInfo where
  offset : Nat
  size : Nat
  compressed : SecureBool
  plaintext : SecureBool
deriving DecidableEq

/-- Modelled from the spec: one entry of the key-lookup service's result:
the target index `idx`, a key and a 16-byte initial counter value. -/
structure SceSegment where
  idx : Nat
  key : List Nat
  iv : List Nat
deriving DecidableEq, Inhabited

/-- Arguments of the (single) invocation of the external key-lookup service,
recorded by the model so that "the service is never invoked" and "the value
passed is X" are expressible. -/
structure KeyCallArgs where
  sceBytes : List Nat
  sysver : Int
  selfType : Nat
  npdrmtype : Nat
  klictxt : List Nat
  silent : Bool
deriving DecidableEq

/-- The modelled environment: the fixed record sizes, the record
decoders/encoder, the AES block function, the inflater and the key-lookup
service, all external to src/self2elf.py. `pack_elf_len` records the spec's
fixed-size contract for the executable header record. -/
structure Env where
  sceHeaderSize : Nat
  selfHeaderSize : Nat
  appInfoSize : Nat
  verInfoSize : Nat
  controlInfoSize : Nat
  digestSize : Nat
  drmSize : Nat
  elfHeaderSize : Nat
  elfPhdrSize : Nat
  segmentInfoSize : Nat
  decodeSelfHeader : List Nat → SelfHeader
  decodeAppInfo : List Nat → AppInfoHeader
  decodeControlInfo : List Nat → SceControlInfo
  decodeDRM : List Nat → SceControlInfoDRM
  decodeElfHeader : List Nat → ElfHeader
  packElfHeader : ElfHeader → List Nat
  decodeElfPhdr : List Nat → ElfPhdr
  decodeSegmentInfo : List Nat → SegmentInfo
  aesCtrBlock : List Nat → Nat → List Nat
  inflate : List Nat → List Nat
  getSegments : List Nat → List Nat → Int → Nat → Nat → List Nat → Bool → List SceSegment
  pack_elf_len : ∀ h, (packElfHeader h).length = elfHeaderSize

/-- Big-endian interpretation of a byte string, as `int.from_bytes(iv, "big")`. -/
def beNat (b : List Nat) : Nat :=
  b.foldl (fun acc x => acc * 256 + x) 0

/-- Counter-mode keystream application: the full 16-byte counter starts at
`iv0` and increments once per 16-byte block, wrapping modulo `2 ^ 128`; the
data is XORed with the concatenated encrypted counter blocks. This is the
semantics of `AES.new(key, AES.MODE_CTR, counter=Counter.new(128,
initial_value=iv0)).decrypt(dat)`. -/
def ctrCrypt (E : Env) (key : List Nat) (iv0 : Nat) (dat : List Nat) : List Nat :=
  List.zipWith (fun a b => a ^^^ b) dat
    (((List.range ((dat.length + 15) / 16)).map
      (fun j => E.aesCtrBlock key ((iv0 + j) % 2 ^ 128))).flatten)

/-- The result of the control-info chain walk (lines 36-61 of the source):
whether the digest sub-record was read and at which absolute position, the
absolute position of the second (DRM-slot) control-info header, whether a DRM
sub-record was read, and the resulting `npdrmtype` value. -/
structure ControlPhase where
  digestRead : Bool
  digestPos : Nat
  secondPos : Nat
  drmRead : Bool
  drmPos : Nat
  npdrmtype : Nat
deriving DecidableEq

/-- The control-info chain walk: read the first common header at `coff`; if
its tag is the digest type, read the digest sub-record and advance the
accumulated offset by its size, otherwise do not advance; read the second
common header unconditionally at the resulting offset; if its tag is the
NPDRM type, read the DRM sub-record there and take its `npdrm_type`,
otherwise `npdrmtype` stays 0. -/
def controlPhase (E : Env) (s : List Nat) (coff : Nat) : ControlPhase :=
  let ci1 := E.decodeControlInfo (slice s coff E.controlInfoSize)
  let off1 := E.controlInfoSize
  let off2 := if ci1.type = ControlType.digest_sha256 then off1 + E.digestSize else off1
  let ci2 := E.decodeControlInfo (slice s (coff + off2) E.controlInfoSize)
  let off3 := off2 + E.controlInfoSize
  if ci2.type = ControlType.npdrm_vita then
    { digestRead := ci1.type = ControlType.digest_sha256
      digestPos := coff + off1
      secondPos := coff + off2
      drmRead := true
      drmPos := coff + off3
      npdrmtype := (E.decodeDRM (slice s (coff + off3) E.drmSize)).npdrm_type }
  else
    { digestRead := ci1.type = ControlType.digest_sha256
      digestPos := coff + off1
      secondPos := coff + off2
      drmRead := false
      drmPos := coff + off3
      npdrmtype := 0 }

/-- The 0xF00D sentinel adjustment (lines 69-71 of the source): when the
machine-type field is 0xF00D, the section-header count and offset are zeroed
before the header is written; otherwise the header is unchanged. -/
def adjustElfHeader (h : ElfHeader) : ElfHeader :=
  if h.e_machine = 0xf00d then { h with e_shnum := 0, e_shoff := 0 } else h

/-- Index resolution of the reconstruction loop (lines 107-110): when the
key-lookup result is non-empty (Python truthiness of the dict) the resolved
index is `scesegs[i].idx`, otherwise the loop index itself. -/
def resolveIdx (scesegs : List SceSegment) (i : Nat) : Nat :=
  if scesegs.isEmpty then i else (scesegs.getD i default).idx

/-- Per-segment payload production (lines 126-138): read `size` raw bytes at
the segment-info `offset`; if the segment is marked non-plaintext, apply the
counter-mode keystream with the key and big-endian initial counter of the
key-lookup entry at the loop index `i`; if it is marked compressed, inflate
the result. -/
def segPayload (E : Env) (s : List Nat) (scesegs : List SceSegment)
    (si : SegmentInfo) (i : Nat) : List Nat :=
  let raw := slice s si.offset si.size
  let dec :=
    if si.plaintext = SecureBool.no then
      ctrCrypt E (scesegs.getD i default).key (beNat (scesegs.getD i default).iv) raw
    else raw
  if si.compressed = SecureBool.yes then E.inflate dec else dec

/-- State of the reconstruction loop: the output bytes written so far, the
output cursor `at` of the source (named `at_` since `at` is reserved), and
whether the fatal layout error has been raised. -/
structure LoopState where
  out : List Nat
  at_ : Nat
  err : Bool
deriving DecidableEq

/-- One iteration of the reconstruction loop (lines 106-142): resolve the
index; skip when the program header's file size is zero; raise the fatal
layout error when the declared file offset is behind the cursor (negative
padding), freezing the output; otherwise write exactly the padding zeros and
the transformed payload and advance the cursor by both. -/
def segStep (E : Env) (s : List Nat) (scesegs : List SceSegment)
    (ph : Nat → ElfPhdr) (si : Nat → SegmentInfo)
    (st : LoopState) (i : Nat) : LoopState :=
  if st.err then st
  else
    let idx := resolveIdx scesegs i
    if (ph idx).p_filesz = 0 then st
    else if (ph idx).p_offset < st.at_ then { st with err := true }
    else
      let dat := segPayload E s scesegs (si idx) i
      { out := st.out ++ zeros ((ph idx).p_offset - st.at_) ++ dat
        at_ := (ph idx).p_offset + dat.length
        err := false }

/-- The envelope-header bytes: read from the stream's current position `p0`
(the source performs no seek before this read). -/
def sceBytesOf (E : Env) (s : List Nat) (p0 : Nat) : List Nat :=
  slice s p0 E.sceHeaderSize

/-- The loader header: read directly after the envelope header, again without
a seek, and decoded into the six absolute offsets used downstream. -/
def selfHdrOf (E : Env) (s : List Nat) (p0 : Nat) : SelfHeader :=
  E.decodeSelfHeader (slice s (p0 + E.sceHeaderSize) E.selfHeaderSize)

/-- The app-info record, read at its loader-header offset; `ignore_sysver`
overrides the system version with the sentinel `-1`. -/
def appInfoOf (E : Env) (s : List Nat) (p0 : Nat) (ignore_sysver : Bool) : AppInfoHeader :=
  let a := E.decodeAppInfo (slice s (selfHdrOf E s p0).appinfo_offset E.appInfoSize)
  if ignore_sysver then { a with sys_version := -1 } else a

/-- The control-info chain walk, started at the loader header's control-info
offset. -/
def controlOf (E : Env) (s : List Nat) (p0 : Nat) : ControlPhase :=
  controlPhase E s (selfHdrOf E s p0).controlinfo_offset

/-- The embedded executable header as decoded from the stream. -/
def rawElfHdrOf (E : Env) (s : List Nat) (p0 : Nat) : ElfHeader :=
  E.decodeElfHeader (slice s (selfHdrOf E s p0).elf_offset E.elfHeaderSize)

/-- The executable header actually written to the output: the decoded header
after the 0xF00D sentinel adjustment. -/
def writtenElfHeader (E : Env) (s : List Nat) (p0 : Nat) : ElfHeader :=
  adjustElfHeader (rawElfHdrOf E s p0)

/-- The number of program headers, as the loops read it from the (possibly
adjusted) header; the adjustment never touches `e_phnum`. -/
def phnumOf (E : Env) (s : List Nat) (p0 : Nat) : Nat :=
  (writtenElfHeader E s p0).e_phnum

/-- The raw bytes of the `i`-th program-header entry, copied verbatim to the
output. -/
def phdrBytesOf (E : Env) (s : List Nat) (p0 i : Nat) : List Nat :=
  slice s ((selfHdrOf E s p0).phdr_offset + i * E.elfPhdrSize) E.elfPhdrSize

/-- The decoded `i`-th program header. -/
def phdrOf (E : Env) (s : List Nat) (p0 i : Nat) : ElfPhdr :=
  E.decodeElfPhdr (phdrBytesOf E s p0 i)

/-- The decoded `i`-th segment-info record. -/
def seginfoOf (E : Env) (s : List Nat) (p0 i : Nat) : SegmentInfo :=
  E.decodeSegmentInfo
    (slice s ((selfHdrOf E s p0).segment_info_offset + i * E.segmentInfoSize) E.segmentInfoSize)

/-- The `encrypted` flag (lines 98-99): set when any segment-info record is
marked non-plaintext. -/
def encryptedOf (E : Env) (s : List Nat) (p0 : Nat) : Bool :=
  (List.range (phnumOf E s p0)).any fun i =>
    decide ((seginfoOf E s p0 i).plaintext = SecureBool.no)

/-- The key-lookup result (lines 101-104): the external service is invoked
exactly when some segment is non-plaintext; otherwise the empty mapping. -/
def scesegsOf (E : Env) (s : List Nat) (p0 : Nat) (klictxt : List Nat)
    (silent ignore_sysver : Bool) : List SceSegment :=
  if encryptedOf E s p0 then
    E.getSegments s (sceBytesOf E s p0) (appInfoOf E s p0 ignore_sysver).sys_version
      (appInfoOf E s p0 ignore_sysver).self_type (controlOf E s p0).npdrmtype klictxt silent
  else []

/-- The output and cursor state after the executable header and the full
program-header table have been written (lines 72-90): the cursor is
initialised to the header size plus one program-header size per entry. -/
def initState (E : Env) (s : List Nat) (p0 : Nat) : LoopState :=
  { out := E.packElfHeader (writtenElfHeader E s p0) ++
      ((List.range (phnumOf E s p0)).map (phdrBytesOf E s p0)).flatten
    at_ := E.elfHeaderSize + phnumOf E s p0 * E.elfPhdrSize
    err := false }

/-- The loop state reached after the first `i` iterations of the
reconstruction loop. -/
def stateBefore (E : Env) (s : List Nat) (p0 : Nat) (klictxt : List Nat)
    (silent ignore_sysver : Bool) (i : Nat) : LoopState :=
  (List.range i).foldl
    (segStep E s (scesegsOf E s p0 klictxt silent ignore_sysver)
      (phdrOf E s p0) (seginfoOf E s p0))
    (initState E s p0)

/-- The overall result of the conversion: the output bytes, the final cursor,
the error flag, plus instrumentation: the key-lookup invocation (if any) with
its arguments, the visit trace of (loop index, resolved index) pairs, and the
`npdrmtype` value of the control-info walk. -/
structure ConvResult where
  out : List Nat
  at_ : Nat
  err : Bool
  keyCall : Option KeyCallArgs
  trace : List (Nat × Nat)
  npdrm : Nat
deriving DecidableEq

/-- The whole conversion `self2elf(inf, outf, klictxt, silent, ignore_sysver)`
of the source, over a stream `s` whose initial read position is `p0`. -/
def self2elf (E : Env) (s : List Nat) (p0 : Nat) (klictxt : List Nat)
    (silent ignore_sysver : Bool) : ConvResult :=
  let fin := stateBefore E s p0 klictxt silent ignore_sysver (phnumOf E s p0)
  { out := fin.out
    at_ := fin.at_
    err := fin.err
    keyCall :=
      if encryptedOf E s p0 then
        some { sceBytes := sceBytesOf E s p0
               sysver := (appInfoOf E s p0 ignore_sysver).sys_version
               selfType := (appInfoOf E s p0 ignore_sysver).self_type
               npdrmtype := (controlOf E s p0).npdrmtype
               klictxt := klictxt
               silent := silent }
      else none
    trace := (List.range (phnumOf E s p0)).map fun i =>
      (i, resolveIdx (scesegsOf E s p0 klictxt silent ignore_sysver) i)
    npdrm := (controlOf E s p0).npdrmtype }

/-- An absolute placement write: put `d` at absolute offset `off` of the
buffer, zero-filling the gap from the buffer's end. Used to state the
original-image layout independently of the conversion's cursor arithmetic. -/
def writeAt (buf : List Nat) (off : Nat) (d : List Nat) : List Nat :=
  buf.take off ++ zeros (off - buf.length) ++ d

/-- The uncompressed executable image determined by a base (header plus
program-header table) and a list of (file offset, segment bytes) placements. -/
def layoutImage (base : List Nat) (segs : List (Nat × List Nat)) : List Nat :=
  segs.foldl (fun buf pr => writeAt buf pr.1 pr.2) base

/-- Layout validity of a run of the reconstruction loop: starting from cursor
`c`, every non-empty segment's declared file offset is at or after the cursor
(every pad non-negative), the cursor advancing past each placed payload. -/
def okLayout (ph : Nat → ElfPhdr) (plen : Nat → Nat) : Nat → List Nat → Bool
  | _, [] => true
  | c, i :: rest =>
    if (ph i).p_filesz = 0 then okLayout ph plen c rest
    else decide (c ≤ (ph i).p_offset) && okLayout ph plen ((ph i).p_offset + plen i) rest

/-- A small concrete environment used to evaluate the model on explicit
containers: one-byte tags, byte-per-field decoders, a toy keystream block
function and a toy inflater. It satisfies the fixed-size packing contract. -/
def defaultEnv : Env where
  sceHeaderSize := 1
  selfHeaderSize := 6
  appInfoSize := 2
  verInfoSize := 1
  controlInfoSize := 1
  digestSize := 2
  drmSize := 1
  elfHeaderSize := 5
  elfPhdrSize := 2
  segmentInfoSize := 4
  decodeSelfHeader := fun b =>
    { appinfo_offset := b.getD 0 0
      sceversion_offset := b.getD 1 0
      controlinfo_offset := b.getD 2 0
      elf_offset := b.getD 3 0
      phdr_offset := b.getD 4 0
      segment_info_offset := b.getD 5 0 }
  decodeAppInfo := fun b =>
    { sys_version := Int.ofNat (b.getD 0 0), self_type := b.getD 1 0 }
  decodeControlInfo := fun b =>
    if b.getD 0 0 = 1 then { type := ControlType.digest_sha256 }
    else if b.getD 0 0 = 2 then { type := ControlType.npdrm_vita }
    else { type := ControlType.other (b.getD 0 0) }
  decodeDRM := fun b => { npdrm_type := b.getD 0 0 }
  decodeElfHeader := fun b =>
    { e_machine := b.getD 0 0
      e_shnum := b.getD 1 0
      e_shoff := b.getD 2 0
      e_phnum := b.getD 3 0
      rest := [b.getD 4 0] }
  packElfHeader := fun h =>
    [h.e_machine % 256, h.e_shnum % 256, h.e_shoff % 256, h.e_phnum % 256,
      h.rest.getD 0 0 % 256]
  decodeElfPhdr := fun b => { p_offset := b.getD 0 0, p_filesz := b.getD 1 0 }
  decodeSegmentInfo := fun b =>
    { offset := b.getD 0 0
      size := b.getD 1 0
      compressed := if b.getD 2 0 = 1 then SecureBool.yes else SecureBool.no
      plaintext := if b.getD 3 0 = 1 then SecureBool.yes else SecureBool.no }
  aesCtrBlock := fun key c => List.replicate 16 ((key.getD 0 0 + c) % 256)
  inflate := fun b => b ++ b
  getSegments := fun _ _ _ _ _ _ _ =>
    [{ idx := 1, key := [0], iv := List.replicate 16 0 },
     { idx := 0, key := [0], iv := List.replicate 16 0 }]
  pack_elf_len := fun _ => rfl

/-- A concrete fully-plaintext, uncompressed container with two segments and
consistent file offsets: the header-table end is at cursor 9, segment 0 is
declared at file offset 9 with two bytes stored at stream offset 29, segment 1
at file offset 12 with two bytes stored at stream offset 31. -/
def roundtripStream : List Nat :=
  [0, 7, 0, 9, 12, 17, 21, 0, 0, 0, 0, 0,
   7, 0, 0, 2, 0,
   9, 2, 12, 2,
   29, 2, 0, 1, 31, 2, 0, 1,
   30, 40, 50, 60]

lemma slice_length (s : List Nat) (off n : Nat) :
    (slice s off n).length = min n (s.length - off) := by
  simp [slice]

lemma slice_length_of_le {s : List Nat} {off n : Nat} (h : off + n ≤ s.length) :
    (slice s off n).length = n := by
  rw [slice_length]
  omega

lemma segStep_of_err (E : Env) (s : List Nat) (segs : List SceSegment)
    (ph : Nat → ElfPhdr) (si : Nat → SegmentInfo) (st : LoopState) (i : Nat)
    (h : st.err = true) : segStep E s segs ph si st i = st := by
  simp [segStep, h]

lemma foldl_segStep_of_err (E : Env) (s : List Nat) (segs : List SceSegment)
    (ph : Nat → ElfPhdr) (si : Nat → SegmentInfo) (st : LoopState)
    (h : st.err = true) (l : List Nat) :
    l.foldl (segStep E s segs ph si) st = st := by
  induction l with
  | nil => rfl
  | cons i l ih => rw [List.foldl_cons, segStep_of_err E s segs ph si st i h, ih]

lemma segStep_len (E : Env) (s : List Nat) (segs : List SceSegment)
    (ph : Nat → ElfPhdr) (si : Nat → SegmentInfo) (st : LoopState) (i : Nat)
    (h : st.out.length = st.at_) :
    (segStep E s segs ph si st i).out.length = (segStep E s segs ph si st i).at_ := by
  simp only [segStep]
  split_ifs with h1 h2 h3
  · exact h
  · exact h
  · exact h
  · simp only [List.length_append, zeros, List.length_replicate]
    omega

lemma segStep_out_prefix (E : Env) (s : List Nat) (segs : List SceSegment)
    (ph : Nat → ElfPhdr) (si : Nat → SegmentInfo) (st : LoopState) (i : Nat) :
    ∃ t, (segStep E s segs ph si st i).out = st.out ++ t := by
  simp only [segStep]
  split_ifs with h1 h2 h3
  · exact ⟨[], by simp⟩
  · exact ⟨[], by simp⟩
  · exact ⟨[], by simp⟩
  · exact ⟨_, by rw [List.append_assoc]⟩

lemma foldl_segStep_out_prefix (E : Env) (s : List Nat) (segs : List SceSegment)
    (ph : Nat → ElfPhdr) (si : Nat → SegmentInfo) (l : List Nat) (st : LoopState) :
    ∃ t, (l.foldl (segStep E s segs ph si) st).out = st.out ++ t := by
  induction l generalizing st with
  | nil => exact ⟨[], by simp⟩
  | cons i l ih =>
    obtain ⟨t1, h1⟩ := segStep_out_prefix E s segs ph si st i
    obtain ⟨t2, h2⟩ := ih (segStep E s segs ph si st i)
    exact ⟨t1 ++ t2, by rw [List.foldl_cons, h2, h1, List.append_assoc]⟩

lemma getD_map_range {α : Type} (l : List α) (d : α) :
    (List.range l.length).map (fun i => l.getD i d) = l := by
  induction l with
  | nil => rfl
  | cons a l ih =>
    rw [List.length_cons, List.range_succ_eq_map, List.map_cons, List.map_map,
      List.getD_cons_zero]
    have h2 : List.map ((fun i => (a :: l).getD i d) ∘ Nat.succ) (List.range l.length)
        = List.map (fun i => l.getD i d) (List.range l.length) := by
      apply List.map_congr_left
      intro x _
      simp [Function.comp, List.getD_cons_succ]
    rw [h2, ih]

lemma initState_len (E : Env) (s : List Nat) (p0 : Nat)
    (hph : (selfHdrOf E s p0).phdr_offset + phnumOf E s p0 * E.elfPhdrSize ≤ s.length) :
    (initState E s p0).out.length = (initState E s p0).at_ := by
  simp only [initState, List.length_append, E.pack_elf_len, List.length_flatten, List.map_map]
  have hmap : (List.range (phnumOf E s p0)).map (List.length ∘ phdrBytesOf E s p0)
      = (List.range (phnumOf E s p0)).map (fun _ => E.elfPhdrSize) := by
    apply List.map_congr_left
    intro i hi
    rw [List.mem_range] at hi
    show (phdrBytesOf E s p0 i).length = E.elfPhdrSize
    unfold phdrBytesOf
    apply slice_length_of_le
    have h1 : (i + 1) * E.elfPhdrSize ≤ phnumOf E s p0 * E.elfPhdrSize :=
      Nat.mul_le_mul_right _ hi
    rw [Nat.succ_mul] at h1
    omega
  rw [hmap, List.map_const', List.sum_replicate, List.length_range, smul_eq_mul]

lemma encryptedOf_eq_false (E : Env) (s : List Nat) (p0 : Nat)
    (hpt : ∀ i < phnumOf E s p0, (seginfoOf E s p0 i).plaintext ≠ SecureBool.no) :
    encryptedOf E s p0 = false := by
  unfold encryptedOf
  rw [List.any_eq_false]
  intro i hi
  rw [List.mem_range] at hi
  simpa using hpt i hi

lemma scesegsOf_eq_nil (E : Env) (s : List Nat) (p0 : Nat) (klictxt : List Nat)
    (silent ignore_sysver : Bool) (henc : encryptedOf E s p0 = false) :
    scesegsOf E s p0 klictxt silent ignore_sysver = [] := by
  unfold scesegsOf
  rw [henc]
  rfl

lemma writeAt_of_le (buf : List Nat) (off : Nat) (d : List Nat) (h : buf.length ≤ off) :
    writeAt buf off d = buf ++ zeros (off - buf.length) ++ d := by
  unfold writeAt
  rw [List.take_of_length_le h]

lemma runLayout (E : Env) (s : List Nat) (ph : Nat → ElfPhdr) (si : Nat → SegmentInfo)
    (l : List Nat) :
    ∀ st : LoopState,
    (∀ i ∈ l, (si i).plaintext = SecureBool.yes ∧ (si i).compressed = SecureBool.no) →
    st.out.length = st.at_ → st.err = false →
    okLayout ph (fun i => (slice s (si i).offset (si i).size).length) st.at_ l = true →
    (l.foldl (segStep E s [] ph si) st).err = false ∧
    (l.foldl (segStep E s [] ph si) st).out =
      layoutImage st.out ((l.filter (fun i => (ph i).p_filesz != 0)).map
        (fun i => ((ph i).p_offset, slice s (si i).offset (si i).size))) := by
  induction l with
  | nil =>
    intro st _ _ herr _
    exact ⟨herr, by simp [layoutImage]⟩
  | cons i l ih =>
    intro st hpt hlen herr hok
    by_cases h0 : (ph i).p_filesz = 0
    · have hstep : segStep E s [] ph si st i = st := by
        simp [segStep, herr, resolveIdx, h0]
      have hok' : okLayout ph (fun i => (slice s (si i).offset (si i).size).length) st.at_ l
          = true := by
        simpa [okLayout, h0] using hok
      rw [List.foldl_cons, hstep, List.filter_cons, if_neg (by simpa using h0)]
      exact ih st (fun j hj => hpt j (List.mem_cons_of_mem _ hj)) hlen herr hok'
    · have hok2 : st.at_ ≤ (ph i).p_offset ∧
          okLayout ph (fun i => (slice s (si i).offset (si i).size).length)
            ((ph i).p_offset + (slice s (si i).offset (si i).size).length) l = true := by
        simpa [okLayout, h0] using hok
      obtain ⟨hle, hrest⟩ := hok2
      have hraw : segPayload E s [] (si i) i = slice s (si i).offset (si i).size := by
        obtain ⟨hpy, hpc⟩ := hpt i (List.mem_cons_self i l)
        simp [segPayload, hpy, hpc]
      have hstep : segStep E s [] ph si st i =
          { out := st.out ++ zeros ((ph i).p_offset - st.at_) ++
              slice s (si i).offset (si i).size
            at_ := (ph i).p_offset + (slice s (si i).offset (si i).size).length
            err := false } := by
        simp [segStep, herr, resolveIdx, h0, Nat.not_lt.mpr hle, hraw]
      have hlen' : (st.out ++ zeros ((ph i).p_offset - st.at_) ++
          slice s (si i).offset (si i).size).length =
          (ph i).p_offset + (slice s (si i).offset (si i).size).length := by
        simp only [List.length_append, zeros, List.length_replicate]
        omega
      rw [List.foldl_cons, hstep, List.filter_cons, if_pos (by simpa using h0),
        List.map_cons]
      have himg : layoutImage st.out
          (((ph i).p_offset, slice s (si i).offset (si i).size) ::
            (l.filter (fun j => (ph j).p_filesz != 0)).map
              (fun j => ((ph j).p_offset, slice s (si j).offset (si j).size))) =
          layoutImage (st.out ++ zeros ((ph i).p_offset - st.at_) ++
              slice s (si i).offset (si i).size)
            ((l.filter (fun j => (ph j).p_filesz != 0)).map
              (fun j => ((ph j).p_offset, slice s (si j).offset (si j).size))) := by
        simp only [layoutImage, List.foldl_cons]
        rw [writeAt_of_le _ _ _ (by omega), hlen]
      rw [himg]
      exact ih _ (fun j hj => hpt j (List.mem_cons_of_mem _ hj)) hlen' rfl hrest

/-- C1: for a synthetic container whose segment-info records all mark the
segments plaintext and uncompressed, whose program-header table lies within
the stream, and whose program-header file offsets are consistent with the
write cursor (every pad non-negative), the conversion succeeds and its output
is byte-for-byte the uncompressed executable image: the packed header and
program-header table as base, with each non-empty segment's stored bytes
placed at its declared file offset and the gaps zero-filled. -/
theorem c1_plaintext_roundtrip (E : Env) (s : List Nat) (p0 : Nat)
    (klictxt : List Nat) (silent ignore_sysver : Bool)
    (hpt : ∀ i < phnumOf E s p0, (seginfoOf E s p0 i).plaintext = SecureBool.yes ∧
      (seginfoOf E s p0 i).compressed = SecureBool.no)
    (hph : (selfHdrOf E s p0).phdr_offset + phnumOf E s p0 * E.elfPhdrSize ≤ s.length)
    (hok : okLayout (phdrOf E s p0)
      (fun i => (slice s (seginfoOf E s p0 i).offset (seginfoOf E s p0 i).size).length)
      (E.elfHeaderSize + phnumOf E s p0 * E.elfPhdrSize)
      (List.range (phnumOf E s p0)) = true) :
    (self2elf E s p0 klictxt silent ignore_sysver).err = false ∧
    (self2elf E s p0 klictxt silent ignore_sysver).out =
      layoutImage
        (E.packElfHeader (writtenElfHeader E s p0) ++
          ((List.range (phnumOf E s p0)).map (phdrBytesOf E s p0)).flatten)
        (((List.range (phnumOf E s p0)).filter
            (fun i => (phdrOf E s p0 i).p_filesz != 0)).map
          (fun i => ((phdrOf E s p0 i).p_offset,
            slice s (seginfoOf E s p0 i).offset (seginfoOf E s p0 i).size))) := by
  have hnil : scesegsOf E s p0 klictxt silent ignore_sysver = [] :=
    scesegsOf_eq_nil E s p0 klictxt silent ignore_sysver
      (encryptedOf_eq_false E s p0 (fun i hi => by rw [(hpt i hi).1]; simp))
  have hinit := initState_len E s p0 hph
  have h := runLayout E s (phdrOf E s p0) (seginfoOf E s p0)
    (List.range (phnumOf E s p0)) (initState E s p0)
    (fun i hi => hpt i (List.mem_range.mp hi)) hinit rfl hok
  have hbo : stateBefore E s p0 klictxt silent ignore_sysver (phnumOf E s p0) =
      (List.range (phnumOf E s p0)).foldl
        (segStep E s [] (phdrOf E s p0) (seginfoOf E s p0)) (initState E s p0) := by
    unfold stateBefore
    rw [hnil]
  have hout : (self2elf E s p0 klictxt silent ignore_sysver).out =
      (stateBefore E s p0 klictxt silent ignore_sysver (phnumOf E s p0)).out := rfl
  have herr : (self2elf E s p0 klictxt silent ignore_sysver).err =
      (stateBefore E s p0 klictxt silent ignore_sysver (phnumOf E s p0)).err := rfl
  rw [hout, herr, hbo]
  exact ⟨h.1, h.2⟩

/-- C4: when every segment-info record is marked plaintext, the external
key-lookup service is never invoked and the index mapping used by the
reconstruction loop is the identity. -/
theorem c4_identity_mapping_no_keys (E : Env) (s : List Nat) (p0 : Nat)
    (klictxt : List Nat) (silent ignore_sysver : Bool)
    (hpt : ∀ i < phnumOf E s p0, (seginfoOf E s p0 i).plaintext = SecureBool.yes) :
    (self2elf E s p0 klictxt silent ignore_sysver).keyCall = none ∧
    (self2elf E s p0 klictxt silent ignore_sysver).trace =
      (List.range (phnumOf E s p0)).map (fun i => (i, i)) := by
  have henc : encryptedOf E s p0 = false :=
    encryptedOf_eq_false E s p0 (fun i hi => by rw [hpt i hi]; simp)
  have hnil := scesegsOf_eq_nil E s p0 klictxt silent ignore_sysver henc
  constructor
  · show (if encryptedOf E s p0 then _ else none) = none
    rw [henc]
    rfl
  · show (List.range (phnumOf E s p0)).map
        (fun i => (i, resolveIdx (scesegsOf E s p0 klictxt silent ignore_sysver) i)) = _
    rw [hnil]
    simp [resolveIdx]

/-- C2: when key material is present (the key-lookup result is non-empty,
with one entry per program header whose target indices form a permutation of
0..count-1, the spec's contract for the service), the reconstruction loop
visits the logical indices exactly 0..count-1 in ascending order and the
resolved indices are each visited exactly once. -/
theorem c2_logical_order_bijection (E : Env) (s : List Nat) (p0 : Nat)
    (klictxt : List Nat) (silent ignore_sysver : Bool)
    (hne : scesegsOf E s p0 klictxt silent ignore_sysver ≠ [])
    (hlen : (scesegsOf E s p0 klictxt silent ignore_sysver).length = phnumOf E s p0)
    (hperm : ((scesegsOf E s p0 klictxt silent ignore_sysver).map SceSegment.idx).Perm
      (List.range (phnumOf E s p0))) :
    ((self2elf E s p0 klictxt silent ignore_sysver).trace.map Prod.fst =
      List.range (phnumOf E s p0)) ∧
    ((self2elf E s p0 klictxt silent ignore_sysver).trace.map Prod.snd).Perm
      (List.range (phnumOf E s p0)) := by
  have htr : (self2elf E s p0 klictxt silent ignore_sysver).trace =
      (List.range (phnumOf E s p0)).map
        (fun i => (i, resolveIdx (scesegsOf E s p0 klictxt silent ignore_sysver) i)) := rfl
  constructor
  · rw [htr, List.map_map]
    have hid : (Prod.fst ∘ fun i =>
        (i, resolveIdx (scesegsOf E s p0 klictxt silent ignore_sysver) i)) =
        fun i => i := rfl
    rw [hid, List.map_id']
  · rw [htr, List.map_map]
    have hres : (List.range (phnumOf E s p0)).map
        (Prod.snd ∘ fun i => (i, resolveIdx (scesegsOf E s p0 klictxt silent ignore_sysver) i))
        = (scesegsOf E s p0 klictxt silent ignore_sysver).map SceSegment.idx := by
      rw [← hlen]
      have h1 : (List.range (scesegsOf E s p0 klictxt silent ignore_sysver).length).map
          (Prod.snd ∘ fun i =>
            (i, resolveIdx (scesegsOf E s p0 klictxt silent ignore_sysver) i))
          = (List.range (scesegsOf E s p0 klictxt silent ignore_sysver).length).map
            (fun i => ((scesegsOf E s p0 klictxt silent ignore_sysver).getD i default).idx) := by
        apply List.map_congr_left
        intro x _
        simp [resolveIdx, List.isEmpty_iff, hne]
      rw [h1]
      have h2 : (List.range (scesegsOf E s p0 klictxt silent ignore_sysver).length).map
          (fun i => ((scesegsOf E s p0 klictxt silent ignore_sysver).getD i default).idx)
          = ((List.range (scesegsOf E s p0 klictxt silent ignore_sysver).length).map
            (fun i => (scesegsOf E s p0 klictxt silent ignore_sysver).getD i default)).map
            SceSegment.idx := by
        rw [List.map_map]
        rfl
      rw [h2, getD_map_range]
    rw [hres]
    exact hperm

/-- C9: the output cursor accounts exactly for the bytes written: the packed
executable header has exactly the header size the cursor starts from, the
cursor equals the output length once the program-header table is written, and
the equality is preserved through every iteration of the reconstruction loop
up to and including the final result. The output is built by appends only;
no write bypasses the cursor. -/
theorem c9_cursor_accounting (E : Env) (s : List Nat) (p0 : Nat)
    (klictxt : List Nat) (silent ignore_sysver : Bool)
    (hph : (selfHdrOf E s p0).phdr_offset + phnumOf E s p0 * E.elfPhdrSize ≤ s.length) :
    (E.packElfHeader (writtenElfHeader E s p0)).length = E.elfHeaderSize ∧
    (initState E s p0).out.length = (initState E s p0).at_ ∧
    (∀ k, (stateBefore E s p0 klictxt silent ignore_sysver k).out.length =
      (stateBefore E s p0 klictxt silent ignore_sysver k).at_) ∧
    (self2elf E s p0 klictxt silent ignore_sysver).out.length =
      (self2elf E s p0 klictxt silent ignore_sysver).at_ := by
  have hk : ∀ k, (stateBefore E s p0 klictxt silent ignore_sysver k).out.length =
      (stateBefore E s p0 klictxt silent ignore_sysver k).at_ := by
    intro k
    induction k with
    | zero => exact initState_len E s p0 hph
    | succ k ih =>
      unfold stateBefore at ih ⊢
      rw [List.range_succ, List.foldl_append, List.foldl_cons, List.foldl_nil]
      exact segStep_len _ _ _ _ _ _ _ ih
  exact ⟨E.pack_elf_len _, initState_len E s p0 hph, hk, hk (phnumOf E s p0)⟩

lemma stateBefore_succ (E : Env) (s : List Nat) (p0 : Nat) (klictxt : List Nat)
    (silent ignore_sysver : Bool) (i : Nat) :
    stateBefore E s p0 klictxt silent ignore_sysver (i + 1) =
      segStep E s (scesegsOf E s p0 klictxt silent ignore_sysver)
        (phdrOf E s p0) (seginfoOf E s p0)
        (stateBefore E s p0 klictxt silent ignore_sysver i) i := by
  unfold stateBefore
  rw [List.range_succ, List.foldl_append, List.foldl_cons, List.foldl_nil]

lemma stateBefore_absorb (E : Env) (s : List Nat) (p0 : Nat) (klictxt : List Nat)
    (silent ignore_sysver : Bool) (i : Nat) (hi : i ≤ phnumOf E s p0)
    (herr : (stateBefore E s p0 klictxt silent ignore_sysver i).err = true) :
    stateBefore E s p0 klictxt silent ignore_sysver (phnumOf E s p0) =
      stateBefore E s p0 klictxt silent ignore_sysver i := by
  obtain ⟨k, hk⟩ : ∃ k, phnumOf E s p0 = i + k := ⟨phnumOf E s p0 - i, by omega⟩
  conv_lhs => rw [hk]
  show (List.range (i + k)).foldl _ _ = _
  rw [List.range_add, List.foldl_append]
  exact foldl_segStep_of_err _ _ _ _ _ _ herr _

/-- C5: for a visited segment with non-zero file size, the padding is the
declared file offset minus the current cursor. When this is negative the
conversion ends with the fatal layout error and no bytes of that segment
(nor of any later segment) are written; otherwise exactly that many zero
bytes are written, followed by the segment payload. -/
theorem c5_negative_pad_fatal (E : Env) (s : List Nat) (p0 : Nat)
    (klictxt : List Nat) (silent ignore_sysver : Bool) (i : Nat)
    (hi : i < phnumOf E s p0)
    (herr : (stateBefore E s p0 klictxt silent ignore_sysver i).err = false)
    (hfs : (phdrOf E s p0
      (resolveIdx (scesegsOf E s p0 klictxt silent ignore_sysver) i)).p_filesz ≠ 0) :
    ((phdrOf E s p0
        (resolveIdx (scesegsOf E s p0 klictxt silent ignore_sysver) i)).p_offset <
        (stateBefore E s p0 klictxt silent ignore_sysver i).at_ →
      (self2elf E s p0 klictxt silent ignore_sysver).err = true ∧
      (self2elf E s p0 klictxt silent ignore_sysver).out =
        (stateBefore E s p0 klictxt silent ignore_sysver i).out) ∧
    ((stateBefore E s p0 klictxt silent ignore_sysver i).at_ ≤
        (phdrOf E s p0
          (resolveIdx (scesegsOf E s p0 klictxt silent ignore_sysver) i)).p_offset →
      stateBefore E s p0 klictxt silent ignore_sysver (i + 1) =
        { out := (stateBefore E s p0 klictxt silent ignore_sysver i).out ++
            zeros ((phdrOf E s p0
                (resolveIdx (scesegsOf E s p0 klictxt silent ignore_sysver) i)).p_offset -
              (stateBefore E s p0 klictxt silent ignore_sysver i).at_) ++
            segPayload E s (scesegsOf E s p0 klictxt silent ignore_sysver)
              (seginfoOf E s p0
                (resolveIdx (scesegsOf E s p0 klictxt silent ignore_sysver) i)) i
          at_ := (phdrOf E s p0
              (resolveIdx (scesegsOf E s p0 klictxt silent ignore_sysver) i)).p_offset +
            (segPayload E s (scesegsOf E s p0 klictxt silent ignore_sysver)
              (seginfoOf E s p0
                (resolveIdx (scesegsOf E s p0 klictxt silent ignore_sysver) i)) i).length
          err := false }) := by
  constructor
  · intro hlt
    have hstep : segStep E s (scesegsOf E s p0 klictxt silent ignore_sysver)
        (phdrOf E s p0) (seginfoOf E s p0)
        (stateBefore E s p0 klictxt silent ignore_sysver i) i =
        { stateBefore E s p0 klictxt silent ignore_sysver i with err := true } := by
      simp [segStep, herr, hfs, hlt]
    have h1 : stateBefore E s p0 klictxt silent ignore_sysver (i + 1) =
        { stateBefore E s p0 klictxt silent ignore_sysver i with err := true } :=
      (stateBefore_succ E s p0 klictxt silent ignore_sysver i).trans hstep
    have habs : stateBefore E s p0 klictxt silent ignore_sysver (phnumOf E s p0) =
        { stateBefore E s p0 klictxt silent ignore_sysver i with err := true } := by
      rw [stateBefore_absorb E s p0 klictxt silent ignore_sysver (i + 1) (by omega)
        (by rw [h1]), h1]
    constructor
    · show (stateBefore E s p0 klictxt silent ignore_sysver (phnumOf E s p0)).err = true
      rw [habs]
    · show (stateBefore E s p0 klictxt silent ignore_sysver (phnumOf E s p0)).out = _
      rw [habs]
  · intro hle
    rw [stateBefore_succ]
    simp [segStep, herr, hfs, Nat.not_lt.mpr hle]

/-- C3: a segment marked non-plaintext is transformed by the counter-mode
keystream: the raw bytes read at the segment-info physical offset and size
are XORed with the encrypted counter blocks, the full 16-byte counter
starting at the big-endian value of the key-lookup entry's initial-counter
bytes and incrementing once per 16-byte block; decryption happens before the
(conditional) decompression, and a segment marked plaintext is passed to the
decompression stage unchanged. -/
theorem c3_ctr_decrypt_step (E : Env) (s : List Nat) (segs : List SceSegment)
    (ph : Nat → ElfPhdr) (si : Nat → SegmentInfo) (st : LoopState) (i : Nat)
    (herr : st.err = false)
    (hfs : (ph (resolveIdx segs i)).p_filesz ≠ 0)
    (hpt : (si (resolveIdx segs i)).plaintext = SecureBool.no)
    (hle : st.at_ ≤ (ph (resolveIdx segs i)).p_offset) :
    segStep E s segs ph si st i =
      { out := st.out ++ zeros ((ph (resolveIdx segs i)).p_offset - st.at_) ++
          segPayload E s segs (si (resolveIdx segs i)) i
        at_ := (ph (resolveIdx segs i)).p_offset +
          (segPayload E s segs (si (resolveIdx segs i)) i).length
        err := false } ∧
    segPayload E s segs (si (resolveIdx segs i)) i =
      (if (si (resolveIdx segs i)).compressed = SecureBool.yes then
        E.inflate (List.zipWith (fun a b => a ^^^ b)
          (slice s (si (resolveIdx segs i)).offset (si (resolveIdx segs i)).size)
          (((List.range (((slice s (si (resolveIdx segs i)).offset
              (si (resolveIdx segs i)).size).length + 15) / 16)).map
            (fun j => E.aesCtrBlock (segs.getD i default).key
              ((beNat (segs.getD i default).iv + j) % 2 ^ 128))).flatten))
      else
        List.zipWith (fun a b => a ^^^ b)
          (slice s (si (resolveIdx segs i)).offset (si (resolveIdx segs i)).size)
          (((List.range (((slice s (si (resolveIdx segs i)).offset
              (si (resolveIdx segs i)).size).length + 15) / 16)).map
            (fun j => E.aesCtrBlock (segs.getD i default).key
              ((beNat (segs.getD i default).iv + j) % 2 ^ 128))).flatten)) ∧
    (∀ sj : SegmentInfo, sj.plaintext ≠ SecureBool.no →
      segPayload E s segs sj i =
        if sj.compressed = SecureBool.yes then E.inflate (slice s sj.offset sj.size)
        else slice s sj.offset sj.size) := by
  refine ⟨?_, ?_, ?_⟩
  · simp [segStep, herr, hfs, Nat.not_lt.mpr hle]
  · simp [segPayload, hpt, ctrCrypt]
  · intro sj hj
    simp [segPayload, hj]

lemma controlPhase_digest (E : Env) (s : List Nat) (coff : Nat)
    (h1 : (E.decodeControlInfo (slice s coff E.controlInfoSize)).type =
      ControlType.digest_sha256) :
    controlPhase E s coff =
      if (E.decodeControlInfo (slice s (coff + (E.controlInfoSize + E.digestSize))
          E.controlInfoSize)).type = ControlType.npdrm_vita then
        { digestRead := true
          digestPos := coff + E.controlInfoSize
          secondPos := coff + (E.controlInfoSize + E.digestSize)
          drmRead := true
          drmPos := coff + (E.controlInfoSize + E.digestSize + E.controlInfoSize)
          npdrmtype := (E.decodeDRM (slice s
            (coff + (E.controlInfoSize + E.digestSize + E.controlInfoSize))
            E.drmSize)).npdrm_type }
      else
        { digestRead := true
          digestPos := coff + E.controlInfoSize
          secondPos := coff + (E.controlInfoSize + E.digestSize)
          drmRead := false
          drmPos := coff + (E.controlInfoSize + E.digestSize + E.controlInfoSize)
          npdrmtype := 0 } := by
  simp only [controlPhase, h1, if_pos]
  split_ifs <;> simp

lemma controlPhase_nodigest (E : Env) (s : List Nat) (coff : Nat)
    (h1 : (E.decodeControlInfo (slice s coff E.controlInfoSize)).type ≠
      ControlType.digest_sha256) :
    controlPhase E s coff =
      if (E.decodeControlInfo (slice s (coff + E.controlInfoSize)
          E.controlInfoSize)).type = ControlType.npdrm_vita then
        { digestRead := false
          digestPos := coff + E.controlInfoSize
          secondPos := coff + E.controlInfoSize
          drmRead := true
          drmPos := coff + (E.controlInfoSize + E.controlInfoSize)
          npdrmtype := (E.decodeDRM (slice s
            (coff + (E.controlInfoSize + E.controlInfoSize))
            E.drmSize)).npdrm_type }
      else
        { digestRead := false
          digestPos := coff + E.controlInfoSize
          secondPos := coff + E.controlInfoSize
          drmRead := false
          drmPos := coff + (E.controlInfoSize + E.controlInfoSize)
          npdrmtype := 0 } := by
  simp only [controlPhase, if_neg h1]
  split_ifs <;> simp [h1]

/-- C6: the digest sub-record is read exactly when the first control-info
header's tag is the digest type, and only then does the offset advance for
the digest slot; the second (DRM-slot) header is read unconditionally at the
resulting offset; the resulting NPDRM type is the DRM sub-record's field when
the DRM tag is present there and 0 otherwise, and that exact value is what a
key-lookup invocation receives. -/
theorem c6_control_chain (E : Env) (s : List Nat) (coff p0 : Nat)
    (klictxt : List Nat) (silent ignore_sysver : Bool) :
    ((controlPhase E s coff).digestRead = true ↔
      (E.decodeControlInfo (slice s coff E.controlInfoSize)).type =
        ControlType.digest_sha256) ∧
    ((E.decodeControlInfo (slice s coff E.controlInfoSize)).type ≠
        ControlType.digest_sha256 →
      (controlPhase E s coff).secondPos = coff + E.controlInfoSize) ∧
    ((E.decodeControlInfo (slice s coff E.controlInfoSize)).type =
        ControlType.digest_sha256 →
      (controlPhase E s coff).secondPos = coff + (E.controlInfoSize + E.digestSize)) ∧
    ((controlPhase E s coff).npdrmtype =
      if (E.decodeControlInfo
          (slice s (controlPhase E s coff).secondPos E.controlInfoSize)).type =
          ControlType.npdrm_vita then
        (E.decodeDRM (slice s ((controlPhase E s coff).secondPos + E.controlInfoSize)
          E.drmSize)).npdrm_type
      else 0) ∧
    (∀ a, (self2elf E s p0 klictxt silent ignore_sysver).keyCall = some a →
      a.npdrmtype = (controlOf E s p0).npdrmtype) := by
  refine ⟨?_, ?_, ?_, ?_, ?_⟩
  · by_cases h1 : (E.decodeControlInfo (slice s coff E.controlInfoSize)).type =
        ControlType.digest_sha256
    · rw [controlPhase_digest E s coff h1]
      split_ifs <;> simp [h1]
    · rw [controlPhase_nodigest E s coff h1]
      split_ifs <;> simp [h1]
  · intro h1
    rw [controlPhase_nodigest E s coff h1]
    split_ifs <;> rfl
  · intro h1
    rw [controlPhase_digest E s coff h1]
    split_ifs <;> rfl
  · by_cases h1 : (E.decodeControlInfo (slice s coff E.controlInfoSize)).type =
        ControlType.digest_sha256
    · rw [controlPhase_digest E s coff h1]
      split_ifs with h2 <;> simp_all [add_assoc]
    · rw [controlPhase_nodigest E s coff h1]
      split_ifs with h2 <;> simp_all [add_assoc]
  · intro a ha
    have hkc : (self2elf E s p0 klictxt silent ignore_sysver).keyCall =
        (if encryptedOf E s p0 then
          some { sceBytes := sceBytesOf E s p0
                 sysver := (appInfoOf E s p0 ignore_sysver).sys_version
                 selfType := (appInfoOf E s p0 ignore_sysver).self_type
                 npdrmtype := (controlOf E s p0).npdrmtype
                 klictxt := klictxt
                 silent := silent }
         else none) := rfl
    rw [hkc] at ha
    by_cases henc : encryptedOf E s p0
    · rw [if_pos henc] at ha
      cases ha
      rfl
    · rw [if_neg henc] at ha
      cases ha

/-- C7: an embedded executable header with machine-type 0xF00D has its
section-header count and offset zeroed in the written header while every
other field is unchanged; any other machine-type leaves the header untouched;
and the conversion's output begins with the packed adjusted header. -/
theorem c7_f00d_sentinel (h : ElfHeader) (E : Env) (s : List Nat) (p0 : Nat)
    (klictxt : List Nat) (silent ignore_sysver : Bool) :
    (h.e_machine = 0xf00d →
      adjustElfHeader h =
        { e_machine := h.e_machine, e_shnum := 0, e_shoff := 0,
          e_phnum := h.e_phnum, rest := h.rest }) ∧
    (h.e_machine ≠ 0xf00d → adjustElfHeader h = h) ∧
    (∃ t, (self2elf E s p0 klictxt silent ignore_sysver).out =
      E.packElfHeader (adjustElfHeader (rawElfHdrOf E s p0)) ++ t) := by
  refine ⟨fun hm => by simp [adjustElfHeader, hm], fun hm => by simp [adjustElfHeader, hm], ?_⟩
  obtain ⟨t, ht⟩ := foldl_segStep_out_prefix E s
    (scesegsOf E s p0 klictxt silent ignore_sysver) (phdrOf E s p0) (seginfoOf E s p0)
    (List.range (phnumOf E s p0)) (initState E s p0)
  refine ⟨((List.range (phnumOf E s p0)).map (phdrBytesOf E s p0)).flatten ++ t, ?_⟩
  have hout : (self2elf E s p0 klictxt silent ignore_sysver).out =
      ((List.range (phnumOf E s p0)).foldl
        (segStep E s (scesegsOf E s p0 klictxt silent ignore_sysver)
          (phdrOf E s p0) (seginfoOf E s p0)) (initState E s p0)).out := rfl
  rw [hout, ht]
  show (initState E s p0).out ++ t = _
  simp only [initState, writtenElfHeader, List.append_assoc]

/-- C8 counterexample: the first two reads of the header chain (envelope and
loader headers) are performed without a preceding seek, so a stream
positioned at 1 instead of 0 before the conversion yields a different
output. -/
theorem c8_first_reads_position_dependent :
    (self2elf defaultEnv [0, 0, 0, 0, 10, 0, 0, 0, 0, 0, 9, 9, 9, 0, 0] 1
      (zeros 16) false false).out ≠
    (self2elf defaultEnv [0, 0, 0, 0, 10, 0, 0, 0, 0, 0, 9, 9, 9, 0, 0] 0
      (zeros 16) false false).out := by
  decide

/-- C8 (amended): every record after the envelope and loader headers is read
at an absolute offset obtained by an explicit seek, so the conversion depends
on the initial stream position only through the envelope/loader bytes read
there: whenever the bytes at two initial positions agree over those first two
records, the whole conversion result is identical. -/
theorem c8_seek_independence_after_loader (E : Env) (s : List Nat) (p0 p1 : Nat)
    (klictxt : List Nat) (silent ignore_sysver : Bool)
    (hinit : slice s p0 (E.sceHeaderSize + E.selfHeaderSize) =
      slice s p1 (E.sceHeaderSize + E.selfHeaderSize)) :
    self2elf E s p0 klictxt silent ignore_sysver =
      self2elf E s p1 klictxt silent ignore_sysver := by
  have hsce : sceBytesOf E s p0 = sceBytesOf E s p1 := by
    have h0 := congrArg (List.take E.sceHeaderSize) hinit
    simpa [sceBytesOf, slice, List.take_take] using h0
  have hself : selfHdrOf E s p0 = selfHdrOf E s p1 := by
    have h0 := congrArg (List.drop E.sceHeaderSize) hinit
    unfold selfHdrOf
    congr 1
    simpa [slice, List.drop_take, List.drop_drop, Nat.add_comm] using h0
  have happ : ∀ ig, appInfoOf E s p0 ig = appInfoOf E s p1 ig := by
    intro ig
    unfold appInfoOf
    rw [hself]
  have hctl : controlOf E s p0 = controlOf E s p1 := by
    unfold controlOf
    rw [hself]
  have hraw : rawElfHdrOf E s p0 = rawElfHdrOf E s p1 := by
    unfold rawElfHdrOf
    rw [hself]
  have hwr : writtenElfHeader E s p0 = writtenElfHeader E s p1 := by
    unfold writtenElfHeader
    rw [hraw]
  have hphn : phnumOf E s p0 = phnumOf E s p1 := by
    unfold phnumOf
    rw [hwr]
  have hpb : phdrBytesOf E s p0 = phdrBytesOf E s p1 := by
    funext i
    unfold phdrBytesOf
    rw [hself]
  have hpd : phdrOf E s p0 = phdrOf E s p1 := by
    funext i
    unfold phdrOf
    rw [hpb]
  have hsi : seginfoOf E s p0 = seginfoOf E s p1 := by
    funext i
    unfold seginfoOf
    rw [hself]
  have henc : encryptedOf E s p0 = encryptedOf E s p1 := by
    unfold encryptedOf
    rw [hphn, hsi]
  have hsegs : scesegsOf E s p0 klictxt silent ignore_sysver =
      scesegsOf E s p1 klictxt silent ignore_sysver := by
    unfold scesegsOf
    rw [henc, hsce, happ, hctl]
  have hini : initState E s p0 = initState E s p1 := by
    unfold initState
    rw [hwr, hphn, hpb]
  have hsb : ∀ k, stateBefore E s p0 klictxt silent ignore_sysver k =
      stateBefore E s p1 klictxt silent ignore_sysver k := by
    intro k
    unfold stateBefore
    rw [hsegs, hpd, hsi, hini]
  unfold self2elf
  rw [hsb, hphn, henc, hsce, happ, hctl, hsegs]

/-- C10: the silence flag only controls diagnostic printing: under the
hypothesis that the external key-lookup service's result does not depend on
its quiet argument, the conversion's output bytes, error status, final cursor
and visit trace are identical for `silent = true` and `silent = false`. -/
theorem c10_silent_noninterference (E : Env) (s : List Nat) (p0 : Nat)
    (klictxt : List Nat) (ignore_sysver : Bool)
    (hq : ∀ st sce v t n k, E.getSegments st sce v t n k true =
      E.getSegments st sce v t n k false) :
    (self2elf E s p0 klictxt true ignore_sysver).out =
      (self2elf E s p0 klictxt false ignore_sysver).out ∧
    (self2elf E s p0 klictxt true ignore_sysver).err =
      (self2elf E s p0 klictxt false ignore_sysver).err ∧
    (self2elf E s p0 klictxt true ignore_sysver).at_ =
      (self2elf E s p0 klictxt false ignore_sysver).at_ ∧
    (self2elf E s p0 klictxt true ignore_sysver).trace =
      (self2elf E s p0 klictxt false ignore_sysver).trace := by
  have hsegs : scesegsOf E s p0 klictxt true ignore_sysver =
      scesegsOf E s p0 klictxt false ignore_sysver := by
    unfold scesegsOf
    by_cases h : encryptedOf E s p0 <;> simp [h, hq]
  have hsb : ∀ k, stateBefore E s p0 klictxt true ignore_sysver k =
      stateBefore E s p0 klictxt false ignore_sysver k := by
    intro k
    unfold stateBefore
    rw [hsegs]
  refine ⟨?_, ?_, ?_, ?_⟩
  · show (stateBefore E s p0 klictxt true ignore_sysver (phnumOf E s p0)).out = _
    rw [hsb]
    rfl
  · show (stateBefore E s p0 klictxt true ignore_sysver (phnumOf E s p0)).err = _
    rw [hsb]
    rfl
  · show (stateBefore E s p0 klictxt true ignore_sysver (phnumOf E s p0)).at_ = _
    rw [hsb]
    rfl
  · show (List.range (phnumOf E s p0)).map
        (fun i => (i, resolveIdx (scesegsOf E s p0 klictxt true ignore_sysver) i)) = _
    rw [hsegs]
    rfl

/-- Like `roundtripStream` but segment 0's program header declares file
offset 5, behind the post-table cursor 9, so its padding is negative. -/
def negPadStream : List Nat :=
  [0, 7, 0, 9, 12, 17, 21, 0, 0, 0, 0, 0,
   7, 0, 0, 2, 0,
   5, 2, 12, 2,
   29, 2, 0, 1, 31, 2, 0, 1,
   30, 40, 50, 60]

/-- Like `roundtripStream` but with both segment-info records marked
non-plaintext, so the key-lookup service is consulted. -/
def remapStream : List Nat :=
  [0, 7, 0, 9, 12, 17, 21, 0, 0, 0, 0, 0,
   7, 0, 0, 2, 0,
   9, 2, 12, 2,
   29, 2, 0, 0, 31, 2, 0, 0,
   30, 40, 50, 60]

/-- Witness for C1 on the concrete synthetic container: the conversion
succeeds and reproduces the 14-byte executable image. -/
theorem c1_roundtrip_witness :
    (self2elf defaultEnv roundtripStream 0 (zeros 16) false false).err = false ∧
    (self2elf defaultEnv roundtripStream 0 (zeros 16) false false).out =
      [7, 0, 0, 2, 0, 9, 2, 12, 2, 30, 40, 0, 50, 60] := by
  have h := c1_plaintext_roundtrip defaultEnv roundtripStream 0 (zeros 16) false false
    (by decide) (by decide) (by decide)
  exact ⟨h.1, h.2.trans (by decide)⟩

/-- Witness for C2 on a concrete encrypted container whose key-lookup result
swaps the two segments. -/
theorem c2_bijection_witness :
    ((self2elf defaultEnv remapStream 0 (zeros 16) false false).trace.map Prod.fst =
      List.range (phnumOf defaultEnv remapStream 0)) ∧
    ((self2elf defaultEnv remapStream 0 (zeros 16) false false).trace.map Prod.snd).Perm
      (List.range (phnumOf defaultEnv remapStream 0)) :=
  c2_logical_order_bijection defaultEnv remapStream 0 (zeros 16) false false
    (by decide) (by decide) (by decide)

/-- Witness for C3 on a concrete encrypted segment: key byte 5, initial
counter 7, keystream byte 12, ciphertext [1, 2] decrypting to [13, 14] after
one padding zero. -/
theorem c3_ctr_decrypt_witness :
    segStep defaultEnv [1, 2, 3, 4] [{ idx := 0, key := [5], iv := [7] }]
      (fun _ => { p_offset := 3, p_filesz := 2 })
      (fun _ => { offset := 0, size := 2, compressed := SecureBool.no,
                  plaintext := SecureBool.no })
      { out := [9, 9], at_ := 2, err := false } 0 =
      { out := [9, 9, 0, 13, 14], at_ := 5, err := false } := by
  have h := c3_ctr_decrypt_step defaultEnv [1, 2, 3, 4]
    [{ idx := 0, key := [5], iv := [7] }]
    (fun _ => { p_offset := 3, p_filesz := 2 })
    (fun _ => { offset := 0, size := 2, compressed := SecureBool.no,
                plaintext := SecureBool.no })
    { out := [9, 9], at_ := 2, err := false } 0
    rfl (by decide) (by decide) (by decide)
  exact h.1.trans (by decide)

/-- Witness for C4 on the concrete fully-plaintext container: no key lookup,
identity trace. -/
theorem c4_identity_witness :
    (self2elf defaultEnv roundtripStream 0 (zeros 16) false false).keyCall = none ∧
    (self2elf defaultEnv roundtripStream 0 (zeros 16) false false).trace =
      (List.range (phnumOf defaultEnv roundtripStream 0)).map (fun i => (i, i)) :=
  c4_identity_mapping_no_keys defaultEnv roundtripStream 0 (zeros 16) false false
    (by decide)

/-- Witness for C5 on the concrete container whose first segment declares an
offset behind the cursor: the conversion errors having written only the
header and program-header table. -/
theorem c5_negative_pad_witness :
    (self2elf defaultEnv negPadStream 0 (zeros 16) false false).err = true ∧
    (self2elf defaultEnv negPadStream 0 (zeros 16) false false).out =
      [7, 0, 0, 2, 0, 5, 2, 12, 2] := by
  have h := (c5_negative_pad_fatal defaultEnv negPadStream 0 (zeros 16) false false 0
    (by decide) (by decide) (by decide)).1 (by decide)
  exact ⟨h.1, h.2.trans (by decide)⟩

/-- Witness for C6 on a chain whose digest slot holds an unrecognized tag:
the second header is still found at the un-advanced offset 1 and the DRM
record's value 5 is extracted. -/
theorem c6_control_chain_witness :
    (controlPhase defaultEnv [0, 2, 5] 0).secondPos = 1 ∧
    (controlPhase defaultEnv [0, 2, 5] 0).npdrmtype = 5 := by
  have h := c6_control_chain defaultEnv [0, 2, 5] 0 0 (zeros 16) false false
  exact ⟨(h.2.1 (by decide)).trans (by decide), h.2.2.2.1.trans (by decide)⟩

/-- Witness for C7 on concrete headers with and without the sentinel
machine-type. -/
theorem c7_f00d_witness :
    adjustElfHeader { e_machine := 0xf00d, e_shnum := 3, e_shoff := 4,
                      e_phnum := 5, rest := [6] } =
      { e_machine := 0xf00d, e_shnum := 0, e_shoff := 0, e_phnum := 5, rest := [6] } ∧
    adjustElfHeader { e_machine := 7, e_shnum := 3, e_shoff := 4,
                      e_phnum := 5, rest := [6] } =
      { e_machine := 7, e_shnum := 3, e_shoff := 4, e_phnum := 5, rest := [6] } := by
  have h1 := c7_f00d_sentinel { e_machine := 0xf00d, e_shnum := 3, e_shoff := 4,
                                e_phnum := 5, rest := [6] } defaultEnv [] 0 (zeros 16) false false
  have h2 := c7_f00d_sentinel { e_machine := 7, e_shnum := 3, e_shoff := 4,
                                e_phnum := 5, rest := [6] } defaultEnv [] 0 (zeros 16) false false
  exact ⟨(h1.1 (by decide)).trans (by decide), h2.2.1 (by decide)⟩

/-- Witness for the amended C8 on a constant stream: two initial positions
with equal envelope/loader bytes yield identical conversions. -/
theorem c8_seek_independence_witness :
    self2elf defaultEnv (List.replicate 12 3) 2 (zeros 16) false false =
      self2elf defaultEnv (List.replicate 12 3) 0 (zeros 16) false false :=
  c8_seek_independence_after_loader defaultEnv (List.replicate 12 3) 2 0
    (zeros 16) false false (by decide)

/-- Witness for C9 on the concrete synthetic container: the final cursor
equals the output length. -/
theorem c9_cursor_witness :
    (self2elf defaultEnv roundtripStream 0 (zeros 16) false false).out.length =
      (self2elf defaultEnv roundtripStream 0 (zeros 16) false false).at_ :=
  (c9_cursor_accounting defaultEnv roundtripStream 0 (zeros 16) false false
    (by decide)).2.2.2

/-- Witness for C10 on the concrete encrypted container with a quiet-blind
key service: the output bytes agree for both silence settings. -/
theorem c10_silent_witness :
    (self2elf defaultEnv remapStream 0 (zeros 16) true false).out =
      (self2elf defaultEnv remapStream 0 (zeros 16) false false).out :=
  (c10_silent_noninterference defaultEnv remapStream 0 (zeros 16) false
    (fun _ _ _ _ _ _ => rfl)).1

end Sceutils
